import Mathlib

/-!
Verification of the two command-line utilities of this repository:
`time.py` (token-based time formatting, time deltas, timestamp decoding)
and `sysinfo.py` (system metric collection and rendering).

The Python code is shallowly embedded: strings are `List Char` (wrapped in
`String` at the outer interfaces), `datetime` values are records of numeric
fields, machine-queried data (partitions, processes, the IANA timezone
database) are explicit parameters, and code paths that raise uncaught
exceptions return `Except.error`.
-/

/-- Character for a decimal digit `d < 10` (codepoint `48 + d`). -/
def decDigit (d : Nat) : Char := Char.ofNat (48 + d)

/-- Tail of the decimal rendering: `fuel` bounds the number of digits still to
be produced (any `fuel > log10 n` yields them all; structural recursion keeps
the definition kernel-reducible). -/
def charsOfNatAux : Nat → Nat → List Char → List Char
  | 0, _, acc => acc
  | fuel + 1, n, acc =>
    if n < 10 then decDigit n :: acc
    else charsOfNatAux fuel (n / 10) (decDigit (n % 10) :: acc)

/-- Decimal digit characters of `n`, most significant first, as printed by
Python `str`/`repr` on a non-negative int (no padding). -/
def charsOfNat (n : Nat) : List Char := charsOfNatAux (n + 1) n []

/-- Rendering of `n` under a `%02d`-style conversion: zero-padded to width 2. -/
def pad2 (n : Nat) : List Char :=
  if n < 10 then '0' :: charsOfNat n else charsOfNat n

/-- Rendering of `n` under a `{...:03d}`-style conversion: zero-padded to width 3. -/
def pad3 (n : Nat) : List Char :=
  if n < 10 then '0' :: '0' :: charsOfNat n
  else if n < 100 then '0' :: charsOfNat n
  else charsOfNat n

/-- Python `str.replace pat rep`: replace every non-overlapping occurrence of
`pat`, scanning left to right.  (The guard on the empty pattern is vacuous for
every call site in the embedded code; Python's empty-pattern behaviour is not
needed.) -/
def replaceAllAux (pat rep : List Char) : Nat → List Char → List Char
  | _, [] => []
  | 0, l => l
  | fuel + 1, c :: cs =>
    if pat ≠ [] ∧ pat.isPrefixOf (c :: cs) then
      rep ++ replaceAllAux pat rep fuel (List.drop (pat.length - 1) cs)
    else
      c :: replaceAllAux pat rep fuel cs

/-- Scan of `replaceAllAux` started with enough fuel: every step consumes at
least one input character, so fuel equal to the length is never exhausted. -/
def replaceAll (pat rep : List Char) (l : List Char) : List Char :=
  replaceAllAux pat rep l.length l

/-- Occurrence-freeness sufficient condition: a pattern whose first character
does not occur in `l` is never matched, so `replaceAll` leaves `l` unchanged. -/
theorem replaceAllAux_of_head_not_mem {p : Char} {pat : List Char} (rep : List Char)
    (hp : pat.head? = some p) :
    ∀ (fuel : Nat) {l : List Char}, p ∉ l → replaceAllAux pat rep fuel l = l := by
  intro fuel
  induction fuel with
  | zero => intro l _; cases l <;> rfl
  | succ fuel ih =>
    intro l hmem
    cases l with
    | nil => rfl
    | cons c cs =>
      rw [replaceAllAux]
      have hc : p ≠ c := fun h => hmem (h ▸ List.mem_cons_self c cs)
      have hnotpre : ¬ pat.isPrefixOf (c :: cs) := by
        cases pat with
        | nil => simp at hp
        | cons q qs =>
          have hq : q = p := by simpa using hp
          subst hq
          rw [List.isPrefixOf_cons₂]
          simp [hc]
      rw [if_neg (by tauto)]
      have hcs : p ∉ cs := fun h => hmem (List.mem_cons_of_mem _ h)
      rw [ih hcs]

/-- Occurrence-freeness for the wrapper: a pattern whose first character does
not occur in `l` leaves `l` unchanged. -/
theorem replaceAll_of_head_not_mem {p : Char} {pat : List Char} (rep : List Char)
    (hp : pat.head? = some p) {l : List Char} (hmem : p ∉ l) :
    replaceAll pat rep l = l :=
  replaceAllAux_of_head_not_mem rep hp l.length hmem

instance {ε α : Type} [DecidableEq ε] [DecidableEq α] : DecidableEq (Except ε α) := fun x y =>
  match x, y with
  | .ok a, .ok b => if h : a = b then .isTrue (by rw [h]) else .isFalse (by simp [h])
  | .ok _, .error _ => .isFalse (by simp)
  | .error _, .ok _ => .isFalse (by simp)
  | .error a, .error b => if h : a = b then .isTrue (by rw [h]) else .isFalse (by simp [h])

/-! ## Calendar arithmetic shared by the time tool -/

/-- Naive `datetime` value: the seven numeric fields of a Python `datetime`
(`microsecond` last).  Timezone awareness is carried separately where needed. -/
structure CivilDT where
  y : Nat
  m : Nat
  d : Nat
  hh : Nat
  mi : Nat
  s : Nat
  us : Nat
deriving DecidableEq, Repr

/-- Days from 1970-01-01 to the Gregorian date `y-m-d` (Hinnant's
`days_from_civil`, as used by the C library underneath `datetime`). -/
def daysFromCivil (y m d : Nat) : Int :=
  let ys : Nat := if m ≤ 2 then y - 1 else y
  let era : Nat := ys / 400
  let yoe : Nat := ys % 400
  let mp : Nat := (m + 9) % 12
  let doy : Nat := (153 * mp + 2) / 5 + d - 1
  let doe : Nat := yoe * 365 + yoe / 4 - yoe / 100 + doy
  (era * 146097 + doe : Int) - 719468

/-- Python `datetime.weekday()`: Monday is 0 … Sunday is 6. -/
def pyWeekday (dt : CivilDT) : Nat := ((daysFromCivil dt.y dt.m dt.d + 3) % 7).toNat

theorem pyWeekday_lt (dt : CivilDT) : pyWeekday dt < 7 := by
  unfold pyWeekday
  have h7 : (0 : Int) < 7 := by decide
  have := Int.emod_lt_of_pos (daysFromCivil dt.y dt.m dt.d + 3) h7
  omega

/-- Full weekday names of `time.py` (`WEEKDAYS`). -/
def WEEKDAYS : List (List Char) :=
  ["星期一".data, "星期二".data, "星期三".data, "星期四".data, "星期五".data,
   "星期六".data, "星期日".data]

/-- Abbreviated weekday names of `time.py` (`WEEKDAYS_SHORT`). -/
def WEEKDAYS_SHORT : List (List Char) :=
  ["周一".data, "周二".data, "周三".data, "周四".data, "周五".data, "周六".data,
   "周日".data]

/-- Expansion of one `strftime` directive character for the fields of `dt`
(`%Y` is rendered unpadded as glibc does; every year reaching `strftime`
in the embedded programs has four digits anyway). -/
def strftimeDirective (dt : CivilDT) : Char → List Char
  | 'Y' => charsOfNat dt.y
  | 'y' => pad2 (dt.y % 100)
  | 'm' => pad2 dt.m
  | 'd' => pad2 dt.d
  | 'H' => pad2 dt.hh
  | 'M' => pad2 dt.mi
  | 'S' => pad2 dt.s
  | '%' => ['%']
  | c => ['%', c]

/-- Model of `dt.strftime`: scan for `%`-directives, copy other characters
(a trailing lone `%` passes through). -/
def strftimeRun (dt : CivilDT) : List Char → List Char
  | [] => []
  | c :: cs =>
    if c = '%' then
      match cs with
      | [] => ['%']
      | c2 :: rest => strftimeDirective dt c2 ++ strftimeRun dt rest
    else c :: strftimeRun dt cs

/-- Token-substitution pipeline of `format_time` in `time.py`: the twelve
`str.replace` calls, in source order, followed by the final `strftime`. -/
def format_time_subst (dt : CivilDT) (fmt : List Char) : List Char :=
  let r := replaceAll "YYYY".data "%Y".data fmt
  let r := replaceAll "YY".data "%y".data r
  let r := replaceAll "MM".data "%m".data r
  let r := replaceAll "DD".data "%d".data r
  let r := replaceAll "HH".data "%H".data r
  let r := replaceAll "mm".data "%M".data r
  let r := replaceAll "ss".data "%S".data r
  let r := replaceAll "SSS".data (pad3 (dt.us / 1000)) r
  let r := replaceAll "dddd".data ((WEEKDAYS.getD (pyWeekday dt) [])) r
  let r := replaceAll "ddd".data ((WEEKDAYS_SHORT.getD (pyWeekday dt) [])) r
  let r := replaceAll "A".data (if dt.hh < 12 then "AM".data else "PM".data) r
  let r := replaceAll "a".data (if dt.hh < 12 then "am".data else "pm".data) r
  strftimeRun dt r

/-- Value of one format token for `dt`, per the spec's token table. -/
def tokenValue (dt : CivilDT) : List Char → List Char
  | ['Y', 'Y', 'Y', 'Y'] => charsOfNat dt.y
  | ['Y', 'Y'] => pad2 (dt.y % 100)
  | ['M', 'M'] => pad2 dt.m
  | ['D', 'D'] => pad2 dt.d
  | ['H', 'H'] => pad2 dt.hh
  | ['m', 'm'] => pad2 dt.mi
  | ['s', 's'] => pad2 dt.s
  | ['S', 'S', 'S'] => pad3 (dt.us / 1000)
  | ['d', 'd', 'd', 'd'] => WEEKDAYS.getD (pyWeekday dt) []
  | ['d', 'd', 'd'] => WEEKDAYS_SHORT.getD (pyWeekday dt) []
  | ['A'] => if dt.hh < 12 then "AM".data else "PM".data
  | ['a'] => if dt.hh < 12 then "am".data else "pm".data
  | _ => []

/-- Fuelled scanner of the single-pass tokenizer (structural recursion so it
is kernel-reducible; fuel equal to the input length is never exhausted). -/
def greedyRenderAux (dt : CivilDT) : Nat → List Char → List Char
  | _, [] => []
  | 0, l => l
  | fuel + 1, l@(c :: cs) =>
    if "dddd".data.isPrefixOf l then tokenValue dt "dddd".data ++ greedyRenderAux dt fuel (cs.drop 3)
    else if "YYYY".data.isPrefixOf l then tokenValue dt "YYYY".data ++ greedyRenderAux dt fuel (cs.drop 3)
    else if "SSS".data.isPrefixOf l then tokenValue dt "SSS".data ++ greedyRenderAux dt fuel (cs.drop 2)
    else if "ddd".data.isPrefixOf l then tokenValue dt "ddd".data ++ greedyRenderAux dt fuel (cs.drop 2)
    else if "YY".data.isPrefixOf l then tokenValue dt "YY".data ++ greedyRenderAux dt fuel (cs.drop 1)
    else if "MM".data.isPrefixOf l then tokenValue dt "MM".data ++ greedyRenderAux dt fuel (cs.drop 1)
    else if "DD".data.isPrefixOf l then tokenValue dt "DD".data ++ greedyRenderAux dt fuel (cs.drop 1)
    else if "HH".data.isPrefixOf l then tokenValue dt "HH".data ++ greedyRenderAux dt fuel (cs.drop 1)
    else if "mm".data.isPrefixOf l then tokenValue dt "mm".data ++ greedyRenderAux dt fuel (cs.drop 1)
    else if "ss".data.isPrefixOf l then tokenValue dt "ss".data ++ greedyRenderAux dt fuel (cs.drop 1)
    else if c = 'A' then tokenValue dt "A".data ++ greedyRenderAux dt fuel cs
    else if c = 'a' then tokenValue dt "a".data ++ greedyRenderAux dt fuel cs
    else c :: greedyRenderAux dt fuel cs

/-- Single-pass tokenizer demanded by the spec (§9): at each position, greedily
match the longest known token and otherwise copy the literal character. -/
def greedyRender (dt : CivilDT) (l : List Char) : List Char :=
  greedyRenderAux dt l.length l

/-- Gregorian date of day number `z` (days since 1970-01-01), Hinnant's
`civil_from_days`; the year is returned as an `Int` so that out-of-range
instants can be detected before building a `datetime`. -/
def civilFromDays (z : Int) : Int × Nat × Nat :=
  let zs : Int := z + 719468
  let era : Int := zs / 146097
  let doe : Nat := (zs % 146097).toNat
  let yoe : Nat := (doe - doe / 1460 + doe / 36524 - doe / 146096) / 365
  let yI : Int := (yoe : Int) + era * 400
  let doy : Nat := doe - (365 * yoe + yoe / 4 - yoe / 100)
  let mp : Nat := (5 * doy + 2) / 153
  let d : Nat := doy - (153 * mp + 2) / 5 + 1
  let m : Nat := if mp < 10 then mp + 3 else mp - 9
  (if m ≤ 2 then yI + 1 else yI, m, d)

/-- Calendar fields of the epoch-microsecond instant `v`, together with the
unclamped year. -/
def civilOfMicro (v : Int) : Int × CivilDT :=
  let days : Int := v / 86400000000
  let rem : Nat := (v % 86400000000).toNat
  let c := civilFromDays days
  (c.1, ⟨c.1.toNat, c.2.1, c.2.2, rem / 3600000000, rem / 60000000 % 60,
        rem / 1000000 % 60, rem % 1000000⟩)

/-- External collaborators of `time.py`: whether the `zoneinfo` module could be
imported, the IANA timezone database (zone name to UTC offset in minutes), and
the offset of the system's local timezone. -/
structure TZEnv where
  zoneinfoAvailable : Bool
  tzdb : String → Option Int
  localOffMin : Int

/-- Function `format_time(dt, fmt, tz)` of `time.py`.  The naive argument `dt`
stands for the UTC instant `nowUtcMicro`; `astimezone` re-expresses that
instant in the requested zone.  An unresolvable zone name raises
`ZoneInfoNotFoundError`, which escapes `format_time` (the `Except.error`
case); with `zoneinfo` unavailable the `elif` branch falls back to UTC. -/
def format_time (env : TZEnv) (nowUtcMicro : Int) (fmt : String) (tz : Option String) :
    Except String String :=
  match tz with
  | some z =>
    if env.zoneinfoAvailable then
      match env.tzdb z with
      | some off =>
        .ok ⟨format_time_subst (civilOfMicro (nowUtcMicro + off * 60000000)).2 fmt.data⟩
      | none => .error z
    else
      .ok ⟨format_time_subst (civilOfMicro nowUtcMicro).2 fmt.data⟩
  | none =>
    .ok ⟨format_time_subst (civilOfMicro (nowUtcMicro + env.localOffMin * 60000000)).2 fmt.data⟩

/-- Lines printed by `main` of `time.py` for a requested timezone `tzArg`
(source lines 120–128): with `zoneinfo` importable it prints the rendered
time, or on a zone-resolution exception the invalid-timezone diagnostic plus
the example-zones line; without `zoneinfo` it prints only the install warning. -/
def main_timezone_lines (env : TZEnv) (nowUtcMicro : Int) (fmtArg tzArg : String) :
    List String :=
  if env.zoneinfoAvailable then
    match format_time env nowUtcMicro fmtArg (some tzArg) with
    | .ok s => [tzArg ++ ": " ++ s]
    | .error _ =>
      ["无效时区: " ++ tzArg,
       "常用时区: Asia/Shanghai, Asia/Tokyo, America/New_York, Europe/London"]
  else
    ["警告: 需要安装 zoneinfo 支持 (Python 3.9+)"]

/-! ## Parsing for `time_diff` and `timestamp_to_date` -/

/-- Consume one expected character. -/
def expectChar (c : Char) : List Char → Option (List Char)
  | x :: r => if x = c then some r else none
  | [] => none

/-- Read exactly `n` decimal digits, returning their value. -/
def readNDigitsAux (acc : Nat) : Nat → List Char → Option (Nat × List Char)
  | 0, l => some (acc, l)
  | n + 1, c :: l => if c.isDigit then readNDigitsAux (acc * 10 + (c.toNat - 48)) n l else none
  | _ + 1, [] => none

/-- Read exactly `n` decimal digits. -/
def readNDigits (n : Nat) (l : List Char) : Option (Nat × List Char) :=
  readNDigitsAux 0 n l

/-- Read one or two decimal digits, greedily, as the `strptime` patterns
`%m` and `%d` (regex `\d{1,2}`) do. -/
def read1or2Digits : List Char → Option (Nat × List Char)
  | c :: r =>
    if c.isDigit then
      match r with
      | c2 :: r2 =>
        if c2.isDigit then some ((c.toNat - 48) * 10 + (c2.toNat - 48), r2)
        else some (c.toNat - 48, r)
      | [] => some (c.toNat - 48, [])
    else none
  | [] => none

/-- Gregorian leap year. -/
def isLeapYear (y : Nat) : Bool := (y % 4 = 0 && y % 100 ≠ 0) || y % 400 = 0

/-- Length of month `m` of year `y`. -/
def daysInMonth (y m : Nat) : Nat :=
  if m = 2 then (if isLeapYear y then 29 else 28)
  else if m = 4 ∨ m = 6 ∨ m = 9 ∨ m = 11 then 30
  else 31

/-- Validation performed by the `datetime` constructor on a calendar date
(`MINYEAR = 1`, `MAXYEAR = 9999`). -/
def validYMD (y m d : Nat) : Bool :=
  1 ≤ y && y ≤ 9999 && 1 ≤ m && m ≤ 12 && 1 ≤ d && d ≤ daysInMonth y m

/-- Date part of `datetime.fromisoformat`: exactly `YYYY-MM-DD`, validated. -/
def parseIsoDate (l : List Char) : Option (Nat × Nat × Nat × List Char) := do
  let (y, r1) ← readNDigits 4 l
  let r2 ← expectChar '-' r1
  let (m, r3) ← readNDigits 2 r2
  let r4 ← expectChar '-' r3
  let (d, r5) ← readNDigits 2 r4
  if validYMD y m d then some (y, m, d, r5) else none

/-- Time-of-day part of `datetime.fromisoformat`:
`HH[:MM[:SS[.fff | .ffffff]]]` (a fraction of exactly three digits is
milliseconds, six digits microseconds). -/
def parseIsoTime (l : List Char) : Option (Nat × Nat × Nat × Nat × List Char) := do
  let (hh, r1) ← readNDigits 2 l
  match expectChar ':' r1 with
  | none => some (hh, 0, 0, 0, r1)
  | some r2 => do
    let (mi, r3) ← readNDigits 2 r2
    match expectChar ':' r3 with
    | none => some (hh, mi, 0, 0, r3)
    | some r4 => do
      let (s, r5) ← readNDigits 2 r4
      match expectChar '.' r5 with
      | none => some (hh, mi, s, 0, r5)
      | some r6 =>
        match readNDigits 6 r6 with
        | some (us, r7) => some (hh, mi, s, us, r7)
        | none => do
          let (ms, r7) ← readNDigits 3 r6
          some (hh, mi, s, ms * 1000, r7)

/-- Model of `datetime.fromisoformat` (the pre-3.11 grammar the code's
`Z`-to-`+00:00` rewrite is aimed at): `YYYY-MM-DD`, optionally a single
separator character, a time of day, and a `±HH:MM` offset (minutes of UTC
offset returned alongside; the whole string must be consumed).  Field ranges
are validated as the `datetime` constructor does. -/
def pyFromisoformat (l : List Char) : Option (CivilDT × Option Int) := do
  let (y, m, d, r) ← parseIsoDate l
  match r with
  | [] => some (⟨y, m, d, 0, 0, 0, 0⟩, none)
  | _sep :: tr => do
    let (hh, mi, s, us, r2) ← parseIsoTime tr
    if hh ≤ 23 ∧ mi ≤ 59 ∧ s ≤ 59 then
      match r2 with
      | [] => some (⟨y, m, d, hh, mi, s, us⟩, none)
      | c :: r3 =>
        if c = '+' ∨ c = '-' then do
          let (oh, r4) ← readNDigits 2 r3
          let r5 ← expectChar ':' r4
          let (om, r6) ← readNDigits 2 r5
          match r6 with
          | [] =>
            if oh * 60 + om < 1440 then
              some (⟨y, m, d, hh, mi, s, us⟩,
                    some (if c = '-' then -((oh * 60 + om : Nat) : Int) else ((oh * 60 + om : Nat) : Int)))
            else none
          | _ => none
        else none
    else none

/-- Model of `datetime.strptime(s, "%Y-%m-%d")`: four year digits, dashes,
one-or-two-digit month and day, nothing left over, calendar-validated. -/
def pyStrptimeYmd (l : List Char) : Option CivilDT := do
  let (y, r1) ← readNDigits 4 l
  let r2 ← expectChar '-' r1
  let (m, r3) ← read1or2Digits r2
  let r4 ← expectChar '-' r3
  let (d, r5) ← read1or2Digits r4
  match r5 with
  | [] => if validYMD y m d then some ⟨y, m, d, 0, 0, 0, 0⟩ else none
  | _ => none

/-- Target parsing of `time_diff`: first `fromisoformat` on the string with
every `Z` replaced by `+00:00`, then `strptime("%Y-%m-%d")`. -/
def pyParseTarget (l : List Char) : Option (CivilDT × Option Int) :=
  match pyFromisoformat (replaceAll ['Z'] "+00:00".data l) with
  | some r => some r
  | none => (pyStrptimeYmd l).map (fun t => (t, none))

/-! ## The time-delta description of `time_diff` -/

/-- Microseconds from the epoch to the naive instant `dt` (exact value of a
`datetime` subtraction at microsecond resolution). -/
def toMicro (dt : CivilDT) : Int :=
  daysFromCivil dt.y dt.m dt.d * 86400000000
    + ((dt.hh * 3600 + dt.mi * 60 + dt.s) * 1000000 + dt.us)

/-- Whole-day count of the absolute delta (`abs_diff.days`). -/
def diffDays (delta : Int) : Nat := delta.natAbs / 86400000000

/-- Whole hours of the in-day remainder (`divmod(abs_diff.seconds, 3600)`). -/
def diffHours (delta : Int) : Nat := delta.natAbs / 1000000 % 86400 / 3600

/-- Whole minutes of the in-hour remainder (`divmod(remainder, 60)`). -/
def diffMinutes (delta : Int) : Nat := delta.natAbs / 1000000 % 86400 % 3600 / 60

/-- Direction word: `距离` for a strictly positive delta, else `已过去`. -/
def diffDirection (delta : Int) : List Char :=
  if 0 < delta then "距离".data else "已过去".data

/-- Rendering `target.strftime("%Y-%m-%d %H:%M:%S")`. -/
def fmtTargetTs (t : CivilDT) : List Char := strftimeRun t "%Y-%m-%d %H:%M:%S".data

/-- Description string built by `time_diff` after a successful naive parse. -/
def describeDiff (now t : CivilDT) : List Char :=
  let delta := toMicro t - toMicro now
  diffDirection delta ++ " ".data ++ fmtTargetTs t
    ++ (if 0 < diffDays delta then " 还有 ".data ++ charsOfNat (diffDays delta) ++ " 天".data else [])
    ++ (if 0 < diffHours delta then " ".data ++ charsOfNat (diffHours delta) ++ " 小时".data else [])
    ++ (if 0 < diffMinutes delta ∧ diffDays delta = 0 then
          " ".data ++ charsOfNat (diffMinutes delta) ++ " 分钟".data else [])

/-- Literal diagnostic of `time_diff` naming the two accepted shapes. -/
def diagDateFormat : String := "无效日期格式，请使用 YYYY-MM-DD 或 YYYY-MM-DD HH:mm:ss"

/-- Function `time_diff(target_str)` of `time.py`, relative to the naive local
current time `now`.  A target that parses with a UTC offset is
timezone-aware; Python then raises an uncaught `TypeError` at `target - now`
(the subtraction sits outside both `try` blocks), modelled as `Except.error`. -/
def time_diff (now : CivilDT) (targetStr : String) : Except String String :=
  match pyParseTarget targetStr.data with
  | none => .ok diagDateFormat
  | some (_, some _) => .error "TypeError: can't subtract offset-naive and offset-aware datetimes"
  | some (t, none) => .ok ⟨describeDiff now t⟩

/-! ## Timestamp decoding -/

/-- Whitespace accepted around a Python int literal string. -/
def isPySpace (c : Char) : Bool := c = ' ' ∨ c = '\t' ∨ c = '\n' ∨ c = '\r'

/-- Digit run with optional single underscores strictly between digits, as
`int()` accepts; the first character must already be a digit. -/
def digitsUnderscoreAux (acc : Nat) : List Char → Option Nat
  | [] => some acc
  | c :: r =>
    if c.isDigit then digitsUnderscoreAux (acc * 10 + (c.toNat - 48)) r
    else if c = '_' then
      match r with
      | c2 :: r2 =>
        if c2.isDigit then digitsUnderscoreAux (acc * 10 + (c2.toNat - 48)) r2 else none
      | [] => none
    else none

/-- Model of Python `int(s)` on a decimal string: surrounding whitespace,
optional sign, digits with single interior underscores. -/
def pyIntOfString (l : List Char) : Option Int :=
  let t := ((l.dropWhile isPySpace).reverse.dropWhile isPySpace).reverse
  let signed : Int × List Char :=
    match t with
    | '+' :: r => (1, r)
    | '-' :: r => (-1, r)
    | r => (1, r)
  match signed.2 with
  | c :: _ => if c.isDigit then (digitsUnderscoreAux 0 signed.2).map (fun n => signed.1 * n) else none
  | [] => none

/-- Rendering step of `timestamp_to_date`: `datetime.fromtimestamp` in the
local timezone followed by `strftime("%Y-%m-%d %H:%M:%S")`.  `fromtimestamp`
raises for instants outside years 1–9999; the bare `except` then yields the
invalid-timestamp diagnostic. -/
def fromtimestampRender (localOffMin : Int) (micro : Int) : String :=
  let c := civilOfMicro (micro + localOffMin * 60000000)
  if 1 ≤ c.1 ∧ c.1 ≤ 9999 then ⟨strftimeRun c.2 "%Y-%m-%d %H:%M:%S".data⟩
  else "无效时间戳"

/-- Function `timestamp_to_date(ts)` of `time.py`: parse as an int, scale by
the `1e12` threshold (seconds below it, milliseconds at or above it), render
in local time.  The float division `ts / 1000` is exact at the rendered
second for every value the year-range guard admits. -/
def timestamp_to_date (localOffMin : Int) (ts : String) : String :=
  match pyIntOfString ts.data with
  | none => "无效时间戳"
  | some n =>
    let micro : Int := if n < 10 ^ 12 then n * 1000000 else n * 1000
    fromtimestampRender localOffMin micro

/-! ## Embedding of `sysinfo.py` -/

/-- Round-half-even of a non-negative rational to an integer, the rounding of
Python's fixed-point float formatting. -/
def roundHalfEven (q : ℚ) : Int :=
  let fl := ⌊q⌋
  if q - fl < 1 / 2 then fl
  else if (1 : ℚ) / 2 < q - fl then fl + 1
  else if fl % 2 = 0 then fl else fl + 1

/-- Python `f"{x:.2f}"` on a non-negative value: two decimal places. -/
def fmt2 (q : ℚ) : List Char :=
  let c : Nat := (roundHalfEven (q * 100)).toNat
  charsOfNat (c / 100) ++ '.' :: pad2 (c % 100)

/-- Function `format_bytes(bytes)` of `sysinfo.py`. -/
def format_bytes (n : Nat) : String :=
  let gb : ℚ := (n : ℚ) / 1024 ^ 3
  if 1 ≤ gb then ⟨fmt2 gb ++ " GB".data⟩
  else ⟨fmt2 ((n : ℚ) / 1024 ^ 2) ++ " MB".data⟩

/-- One entry of `psutil.process_iter(['pid', 'name', 'cpu_percent',
'memory_percent'])`; `none` percentages model `None` values in `proc.info`. -/
structure ProcInfo where
  pid : Nat
  name : String
  cpu_percent : Option ℚ
  memory_percent : Option ℚ
deriving DecidableEq, Repr

/-- Sort key `x.get('memory_percent', 0) or 0`: a missing or `None` (or zero)
memory percentage counts as zero. -/
def memKey (p : ProcInfo) : ℚ := p.memory_percent.getD 0

/-- Stable descending insertion for `memKey`: an element is placed before the
first strictly smaller key, after earlier elements with an equal key. -/
def insertByMem (p : ProcInfo) : List ProcInfo → List ProcInfo
  | [] => [p]
  | q :: qs => if memKey q ≤ memKey p then p :: q :: qs else q :: insertByMem p qs

/-- Model of `processes.sort(key=..., reverse=True)`: Python's sort is stable,
and a stable descending sort has a unique result, realised here by insertion
sort. -/
def sortByMemDesc : List ProcInfo → List ProcInfo
  | [] => []
  | p :: ps => insertByMem p (sortByMemDesc ps)

/-- Function `get_process_info(top=10)` of `sysinfo.py` over an enumeration of
visible processes; `none` entries model processes whose `proc.info` access
raised (skipped by the bare `except`). -/
def get_process_info (enum : List (Option ProcInfo)) : List ProcInfo :=
  (sortByMemDesc (enum.filterMap id)).take 10

/-- One entry of `psutil.disk_partitions()`. -/
structure PartitionInfo where
  device : String
  mountpoint : String
deriving DecidableEq, Repr

/-- Result of `psutil.disk_usage(mountpoint)` when it does not raise. -/
structure DiskUsage where
  total : Nat
  used : Nat
  free : Nat
  percent : ℚ
deriving DecidableEq, Repr

/-- Dict appended by `get_disk_info` for one partition (the percentage is kept
numeric; only byte counts pass through `format_bytes`). -/
structure DiskEntry where
  device : String
  mountpoint : String
  total : String
  used : String
  free : String
  usagePercent : ℚ
deriving DecidableEq, Repr

/-- Entry built for a partition whose usage query succeeded. -/
def mkDiskEntry (p : PartitionInfo) (u : DiskUsage) : DiskEntry :=
  ⟨p.device, p.mountpoint, format_bytes u.total, format_bytes u.used,
   format_bytes u.free, u.percent⟩

/-- Function `get_disk_info()` of `sysinfo.py` over an enumeration of mounted
partitions, each paired with its usage-query outcome (`none` models a raising
`psutil.disk_usage`, swallowed by `except: pass`). -/
def get_disk_info (parts : List (PartitionInfo × Option DiskUsage)) : List DiskEntry :=
  parts.foldl
    (fun disks pu =>
      match pu.2 with
      | some u => disks ++ [mkDiskEntry pu.1 u]
      | none => disks)
    []

/-- Values of the `--type` selector of `sysinfo.py` (`choices` of argparse). -/
inductive SInfoType where
  | cpu | mem | disk | network | process | sys | all
deriving DecidableEq, Repr

/-- Collected payloads of the six section getters, abstracted over their
content type. -/
structure SysEnv (α : Type) where
  sysInfo : α
  cpuInfo : α
  memInfo : α
  diskInfo : α
  netInfo : α
  procInfo : α

/-- Section assembly of `main` in `sysinfo.py` (source lines 94–115): the
`result` dict in insertion order, one labelled entry per requested section. -/
def main_sections {α : Type} (env : SysEnv α) (t : SInfoType) : List (String × α) :=
  (if t = .all ∨ t = .sys then [("系统", env.sysInfo)] else [])
    ++ (if t = .all ∨ t = .cpu then [("CPU", env.cpuInfo)] else [])
    ++ (if t = .all ∨ t = .mem then [("内存", env.memInfo)] else [])
    ++ (if t = .all ∨ t = .disk then [("磁盘", env.diskInfo)] else [])
    ++ (if t = .all ∨ t = .network then [("网络", env.netInfo)] else [])
    ++ (if t = .process then [("进程", env.procInfo)] else [])

/-! ## Helper lemmas about rendered digit strings -/

theorem decDigit_isDigit {d : Nat} (h : d < 10) : (decDigit d).isDigit := by
  interval_cases d <;> decide

theorem charsOfNatAux_all_digit :
    ∀ (fuel n : Nat) (acc : List Char), (∀ c ∈ acc, c.isDigit) →
      ∀ c ∈ charsOfNatAux fuel n acc, c.isDigit := by
  intro fuel
  induction fuel with
  | zero => intro n acc hacc c hc; exact hacc c hc
  | succ fuel ih =>
    intro n acc hacc c hc
    rw [charsOfNatAux] at hc
    by_cases h10 : n < 10
    · rw [if_pos h10] at hc
      rcases List.mem_cons.mp hc with h | h
      · exact h ▸ decDigit_isDigit h10
      · exact hacc c h
    · rw [if_neg h10] at hc
      refine ih (n / 10) _ ?_ c hc
      intro x hx
      rcases List.mem_cons.mp hx with h | h
      · exact h ▸ decDigit_isDigit (Nat.mod_lt _ (by omega))
      · exact hacc x h

theorem charsOfNat_all_digit (n : Nat) : ∀ c ∈ charsOfNat n, c.isDigit :=
  charsOfNatAux_all_digit (n + 1) n [] (by simp)

theorem pad2_all_digit (n : Nat) : ∀ c ∈ pad2 n, c.isDigit := by
  intro c hc
  unfold pad2 at hc
  by_cases h10 : n < 10
  · rw [if_pos h10] at hc
    rcases List.mem_cons.mp hc with h | h
    · subst h; decide
    · exact charsOfNat_all_digit n c h
  · rw [if_neg h10] at hc
    exact charsOfNat_all_digit n c hc

theorem pad3_all_digit (n : Nat) : ∀ c ∈ pad3 n, c.isDigit := by
  intro c hc
  unfold pad3 at hc
  split at hc
  · rcases List.mem_cons.mp hc with h | h
    · subst h; decide
    · rcases List.mem_cons.mp h with h2 | h2
      · subst h2; decide
      · exact charsOfNat_all_digit n c h2
  · split at hc
    · rcases List.mem_cons.mp hc with h | h
      · subst h; decide
      · exact charsOfNat_all_digit n c h
    · exact charsOfNat_all_digit n c hc

theorem not_mem_of_all_digit {c : Char} (hc : c.isDigit = false) {l : List Char}
    (h : ∀ x ∈ l, x.isDigit) : c ∉ l := by
  intro hm
  have := h c hm
  rw [hc] at this
  exact Bool.noConfusion this

theorem strftimeRun_cons_ne (dt : CivilDT) {c : Char} (hc : c ≠ '%') (cs : List Char) :
    strftimeRun dt (c :: cs) = c :: strftimeRun dt cs := by
  cases cs with
  | nil => rw [strftimeRun.eq_def]; simp [hc]
  | cons c2 cs2 => rw [strftimeRun.eq_def]; simp [hc]

theorem strftimeRun_no_percent (dt : CivilDT) :
    ∀ {l : List Char}, '%' ∉ l → strftimeRun dt l = l := by
  intro l
  induction l with
  | nil => intro _; rfl
  | cons c cs ih =>
    intro hmem
    have hc : c ≠ '%' := fun h => hmem (h ▸ List.mem_cons_self c cs)
    rw [strftimeRun_cons_ne dt hc, ih (fun h => hmem (List.mem_cons_of_mem _ h))]

/-! ## Claim C1: token substitution in `format_time` -/

/-- Statement of claim C1 as written: the replacement pipeline of
`format_time` never mistakes replacement text for a later token, i.e. it
agrees with the spec's single-pass greedy tokenizer on every format string. -/
def substMatchesGreedy : Prop :=
  ∀ (dt : CivilDT) (fmt : List Char), format_time_subst dt fmt = greedyRender dt fmt

/-- C1 (amended): every format string consisting of a single token is
substituted exactly as the greedy tokenizer prescribes — within each token
family the longer token wins (`YYYY` before `YY`, `dddd` before `ddd`, and
`SSS`/`ss` are disjoint by case), and no single token's rendering is corrupted
by a later pass. -/
theorem token_substitution_single_token_safe (dt : CivilDT) (t : List Char)
    (ht : t ∈ ["YYYY".data, "YY".data, "MM".data, "DD".data, "HH".data, "mm".data,
               "ss".data, "SSS".data, "dddd".data, "ddd".data, "A".data, "a".data]) :
    format_time_subst dt t = greedyRender dt t := by
  have hAM : format_time_subst dt "A".data = greedyRender dt "A".data := by
    have k1 : format_time_subst dt "A".data =
        strftimeRun dt (replaceAll "a".data (if dt.hh < 12 then "am".data else "pm".data)
          ((if dt.hh < 12 then "AM".data else "PM".data) ++ [])) := rfl
    have k2 : greedyRender dt "A".data = (if dt.hh < 12 then "AM".data else "PM".data) ++ [] := rfl
    rw [k1, k2]
    by_cases h : dt.hh < 12
    · rw [if_pos h, if_pos h]; rfl
    · rw [if_neg h, if_neg h]; rfl
  have ham : format_time_subst dt "a".data = greedyRender dt "a".data := by
    have k1 : format_time_subst dt "a".data =
        strftimeRun dt ((if dt.hh < 12 then "am".data else "pm".data) ++ []) := rfl
    have k2 : greedyRender dt "a".data = (if dt.hh < 12 then "am".data else "pm".data) ++ [] := rfl
    rw [k1, k2]
    by_cases h : dt.hh < 12
    · rw [if_pos h]; rfl
    · rw [if_neg h]; rfl
  have hSSS : format_time_subst dt "SSS".data = greedyRender dt "SSS".data := by
    have hdig : ∀ c ∈ pad3 (dt.us / 1000) ++ ([] : List Char), c.isDigit := by
      simpa using pad3_all_digit (dt.us / 1000)
    have k1 : format_time_subst dt "SSS".data =
        strftimeRun dt (replaceAll "a".data (if dt.hh < 12 then "am".data else "pm".data)
          (replaceAll "A".data (if dt.hh < 12 then "AM".data else "PM".data)
            (replaceAll "ddd".data (WEEKDAYS_SHORT.getD (pyWeekday dt) [])
              (replaceAll "dddd".data (WEEKDAYS.getD (pyWeekday dt) [])
                (pad3 (dt.us / 1000) ++ []))))) := rfl
    have k2 : greedyRender dt "SSS".data = pad3 (dt.us / 1000) ++ [] := rfl
    have s1 : replaceAll "dddd".data (WEEKDAYS.getD (pyWeekday dt) [])
        (pad3 (dt.us / 1000) ++ []) = pad3 (dt.us / 1000) ++ [] :=
      replaceAll_of_head_not_mem _ (show ("dddd".data).head? = some 'd' from rfl)
        (not_mem_of_all_digit (by decide) hdig)
    have s2 : replaceAll "ddd".data (WEEKDAYS_SHORT.getD (pyWeekday dt) [])
        (pad3 (dt.us / 1000) ++ []) = pad3 (dt.us / 1000) ++ [] :=
      replaceAll_of_head_not_mem _ (show ("ddd".data).head? = some 'd' from rfl)
        (not_mem_of_all_digit (by decide) hdig)
    have s3 : replaceAll "A".data (if dt.hh < 12 then "AM".data else "PM".data)
        (pad3 (dt.us / 1000) ++ []) = pad3 (dt.us / 1000) ++ [] :=
      replaceAll_of_head_not_mem _ (show ("A".data).head? = some 'A' from rfl)
        (not_mem_of_all_digit (by decide) hdig)
    have s4 : replaceAll "a".data (if dt.hh < 12 then "am".data else "pm".data)
        (pad3 (dt.us / 1000) ++ []) = pad3 (dt.us / 1000) ++ [] :=
      replaceAll_of_head_not_mem _ (show ("a".data).head? = some 'a' from rfl)
        (not_mem_of_all_digit (by decide) hdig)
    have s5 : strftimeRun dt (pad3 (dt.us / 1000) ++ []) = pad3 (dt.us / 1000) ++ [] :=
      strftimeRun_no_percent dt (not_mem_of_all_digit (by decide) hdig)
    rw [k1, k2, s1, s2, s3, s4, s5]
  have hdddd : format_time_subst dt "dddd".data = greedyRender dt "dddd".data := by
    have k1 : format_time_subst dt "dddd".data =
        strftimeRun dt (replaceAll "a".data (if dt.hh < 12 then "am".data else "pm".data)
          (replaceAll "A".data (if dt.hh < 12 then "AM".data else "PM".data)
            (replaceAll "ddd".data (WEEKDAYS_SHORT.getD (pyWeekday dt) [])
              (WEEKDAYS.getD (pyWeekday dt) [] ++ [])))) := rfl
    have k2 : greedyRender dt "dddd".data = WEEKDAYS.getD (pyWeekday dt) [] ++ [] := rfl
    rw [k1, k2]
    by_cases h : dt.hh < 12 <;>
      [rw [if_pos h, if_pos h]; rw [if_neg h, if_neg h]] <;>
      (have h7 := pyWeekday_lt dt; revert h7; generalize pyWeekday dt = wi; intro h7;
       interval_cases wi <;> rfl)
  have hddd : format_time_subst dt "ddd".data = greedyRender dt "ddd".data := by
    have k1 : format_time_subst dt "ddd".data =
        strftimeRun dt (replaceAll "a".data (if dt.hh < 12 then "am".data else "pm".data)
          (replaceAll "A".data (if dt.hh < 12 then "AM".data else "PM".data)
            (WEEKDAYS_SHORT.getD (pyWeekday dt) [] ++ []))) := rfl
    have k2 : greedyRender dt "ddd".data = WEEKDAYS_SHORT.getD (pyWeekday dt) [] ++ [] := rfl
    rw [k1, k2]
    by_cases h : dt.hh < 12 <;>
      [rw [if_pos h, if_pos h]; rw [if_neg h, if_neg h]] <;>
      (have h7 := pyWeekday_lt dt; revert h7; generalize pyWeekday dt = wi; intro h7;
       interval_cases wi <;> rfl)
  simp only [List.mem_cons, List.not_mem_nil, or_false] at ht
  rcases ht with rfl | rfl | rfl | rfl | rfl | rfl | rfl | rfl | rfl | rfl | rfl | rfl
  · rfl
  · rfl
  · rfl
  · rfl
  · rfl
  · rfl
  · rfl
  · exact hSSS
  · exact hdddd
  · exact hddd
  · exact hAM
  · exact ham

/-- C1 (counterexample): on the format string `MMm` the placeholder `%m`
produced for `MM` merges with the literal `m` and is re-interpreted as the
token `mm` on a later pass, so the code renders the literal text `%M` where
the greedy tokenizer renders month digits followed by `m`. -/
theorem token_substitution_reinterpretation_counterexample :
    ¬ substMatchesGreedy ∧
    format_time_subst ⟨2024, 7, 5, 14, 30, 45, 123456⟩ "MMm".data = "%M".data ∧
    greedyRender ⟨2024, 7, 5, 14, 30, 45, 123456⟩ "MMm".data = "07m".data := by
  refine ⟨fun h => ?_, by decide, by decide⟩
  exact absurd (h ⟨2024, 7, 5, 14, 30, 45, 123456⟩ "MMm".data) (by decide)

/-- Witness for the amended C1 at a concrete instant and the token `dddd`. -/
theorem token_substitution_single_token_safe_witness :
    format_time_subst ⟨2024, 7, 5, 14, 30, 45, 123456⟩ "dddd".data =
      greedyRender ⟨2024, 7, 5, 14, 30, 45, 123456⟩ "dddd".data :=
  token_substitution_single_token_safe ⟨2024, 7, 5, 14, 30, 45, 123456⟩ "dddd".data
    (by decide)

/-! ## Claim C2: `time_diff` parse outcomes and the aware-target crash -/

/-- C2 (amended): `time_diff` returns the delta description for every target
that parses to a naive datetime, and the literal two-shapes diagnostic when
neither accepted shape parses; but a target carrying a `Z`/offset parses to an
aware datetime and the subtraction from the naive current time raises an
uncaught `TypeError`, aborting the process. -/
theorem time_diff_parse_outcomes (now : CivilDT) (s : String) :
    (pyParseTarget s.data = none → time_diff now s = .ok diagDateFormat) ∧
    (∀ t, pyParseTarget s.data = some (t, none) →
      time_diff now s = .ok ⟨describeDiff now t⟩) ∧
    (∀ t off, pyParseTarget s.data = some (t, some off) →
      time_diff now s =
        .error "TypeError: can't subtract offset-naive and offset-aware datetimes") := by
  refine ⟨fun h => ?_, fun t h => ?_, fun t off h => ?_⟩ <;>
    (unfold time_diff; rw [h])

/-- C2 (counterexample): an input that parses as a full ISO-8601 date-time
with a `Z` suffix makes `time_diff` abort instead of returning a string. -/
theorem time_diff_aware_target_raises :
    time_diff ⟨2024, 1, 1, 0, 0, 0, 0⟩ "2024-06-01T12:00:00Z" =
      .error "TypeError: can't subtract offset-naive and offset-aware datetimes" ∧
    (time_diff ⟨2024, 1, 1, 0, 0, 0, 0⟩ "2024-06-01T12:00:00Z").isOk = false ∧
    pyParseTarget "2024-06-01T12:00:00Z".data =
      some (⟨2024, 6, 1, 12, 0, 0, 0⟩, some 0) := by
  refine ⟨by decide, by decide, by decide⟩

/-- Witness for the amended C2 on the three outcome classes. -/
theorem time_diff_parse_outcomes_witness :
    time_diff ⟨2024, 1, 1, 0, 0, 0, 0⟩ "bad-date" = .ok diagDateFormat ∧
    time_diff ⟨2024, 1, 1, 0, 0, 0, 0⟩ "2026-12-31" =
      .ok ⟨describeDiff ⟨2024, 1, 1, 0, 0, 0, 0⟩ ⟨2026, 12, 31, 0, 0, 0, 0⟩⟩ :=
  ⟨(time_diff_parse_outcomes ⟨2024, 1, 1, 0, 0, 0, 0⟩ "bad-date").1 (by decide),
   (time_diff_parse_outcomes ⟨2024, 1, 1, 0, 0, 0, 0⟩ "2026-12-31").2.1
     ⟨2026, 12, 31, 0, 0, 0, 0⟩ (by decide)⟩

/-! ## Claim C10: direction word at a zero delta -/

/-- C10: when the parsed target equals the current instant exactly, the delta
is zero, the future word `距离` is not chosen (it is chosen exactly for a
strictly positive delta), and the rendered description is the past word
followed by the formatted target with no breakdown components. -/
theorem time_diff_zero_delta_past_word :
    (∀ (now t : CivilDT), toMicro t = toMicro now →
      describeDiff now t = "已过去 ".data ++ fmtTargetTs t) ∧
    (∀ delta : Int, diffDirection delta = "距离".data ↔ 0 < delta) := by
  constructor
  · intro now t h
    unfold describeDiff
    rw [h]
    simp only [sub_self]
    norm_num [diffDays, diffHours, diffMinutes, diffDirection]
  · intro delta
    unfold diffDirection
    split
    · simpa
    · constructor
      · intro h
        exact absurd h (by decide)
      · intro h
        omega

/-- Witness for C10 at a concrete coinciding instant. -/
theorem time_diff_zero_delta_past_word_witness :
    describeDiff ⟨2026, 5, 4, 12, 0, 0, 0⟩ ⟨2026, 5, 4, 12, 0, 0, 0⟩ =
      "已过去 ".data ++ fmtTargetTs ⟨2026, 5, 4, 12, 0, 0, 0⟩ :=
  time_diff_zero_delta_past_word.1 ⟨2026, 5, 4, 12, 0, 0, 0⟩ ⟨2026, 5, 4, 12, 0, 0, 0⟩ rfl

/-! ## Claim C4: structure of the delta breakdown -/

/-- C4 (amended): the description is direction word, formatted target, then a
day part printed iff the whole-day count is nonzero, an hour part printed iff
the hour count (always 0–23) is nonzero, and a minute part (minutes always
0–59) printed iff minutes are nonzero and the day count is zero — so no
minute component ever appears with a positive day count; the future word is
chosen exactly for a strictly positive delta, and for a future target the day
count is nonzero exactly when the delta is at least 24 hours (a target less
than a day ahead has day count zero). -/
theorem time_diff_breakdown (now t : CivilDT) :
    ∃ dayPart hourPart minPart : List Char,
      describeDiff now t =
        diffDirection (toMicro t - toMicro now) ++ " ".data ++ fmtTargetTs t
          ++ dayPart ++ hourPart ++ minPart ∧
      (dayPart ≠ [] ↔ 0 < diffDays (toMicro t - toMicro now)) ∧
      (hourPart ≠ [] ↔ 0 < diffHours (toMicro t - toMicro now)) ∧
      (minPart ≠ [] ↔ (0 < diffMinutes (toMicro t - toMicro now) ∧
        diffDays (toMicro t - toMicro now) = 0)) ∧
      diffHours (toMicro t - toMicro now) ≤ 23 ∧
      diffMinutes (toMicro t - toMicro now) ≤ 59 ∧
      (diffDirection (toMicro t - toMicro now) = "距离".data ↔
        0 < toMicro t - toMicro now) ∧
      (0 < diffDays (toMicro t - toMicro now) ↔
        86400000000 ≤ (toMicro t - toMicro now).natAbs) := by
  refine ⟨(if 0 < diffDays (toMicro t - toMicro now) then
            " 还有 ".data ++ charsOfNat (diffDays (toMicro t - toMicro now)) ++ " 天".data
          else []),
          (if 0 < diffHours (toMicro t - toMicro now) then
            " ".data ++ charsOfNat (diffHours (toMicro t - toMicro now)) ++ " 小时".data
          else []),
          (if 0 < diffMinutes (toMicro t - toMicro now) ∧
              diffDays (toMicro t - toMicro now) = 0 then
            " ".data ++ charsOfNat (diffMinutes (toMicro t - toMicro now)) ++ " 分钟".data
          else []), ?_, ?_, ?_, ?_, ?_, ?_, ?_, ?_⟩
  · unfold describeDiff
    simp only [List.append_assoc]
  · split <;> simp_all
  · split <;> simp_all
  · split <;> simp_all
  · unfold diffHours; omega
  · unfold diffMinutes; omega
  · exact time_diff_zero_delta_past_word.2 _
  · unfold diffDays; omega

/-- C4 (counterexample): a target strictly after the current instant can have
a zero day count — from 2099-12-31 23:30:00, the target `2100-01-01` is 30
minutes ahead: the direction word is the future word, no day component is
printed, and a minute component appears. -/
theorem time_diff_future_day_count_counterexample :
    ¬ (∀ now t : CivilDT, toMicro now < toMicro t →
        0 < diffDays (toMicro t - toMicro now)) ∧
    time_diff ⟨2099, 12, 31, 23, 30, 0, 0⟩ "2100-01-01" =
      .ok "距离 2100-01-01 00:00:00 30 分钟" ∧
    diffDays (toMicro ⟨2100, 1, 1, 0, 0, 0, 0⟩ - toMicro ⟨2099, 12, 31, 23, 30, 0, 0⟩) = 0 := by
  refine ⟨fun h => ?_, by decide, by decide⟩
  have := h ⟨2099, 12, 31, 23, 30, 0, 0⟩ ⟨2100, 1, 1, 0, 0, 0, 0⟩ (by decide)
  exact absurd this (by decide)

/-! ## Claim C3: timezone resolution errors -/

/-- C3 (amended): with `zoneinfo` importable, an unresolvable zone name makes
`format_time` raise and `main` print the invalid-timezone line naming the
identifier plus the example-zones line, with nothing rendered; but when the
`zoneinfo` module itself is unavailable, `format_time` silently falls back to
rendering the instant in UTC, and `main` prints only a generic install warning
that names neither the identifier nor example zones. -/
theorem timezone_error_reporting (env : TZEnv) (micro : Int) (fmt z : String) :
    (env.zoneinfoAvailable = true → env.tzdb z = none →
      format_time env micro fmt (some z) = .error z ∧
      main_timezone_lines env micro fmt z =
        ["无效时区: " ++ z,
         "常用时区: Asia/Shanghai, Asia/Tokyo, America/New_York, Europe/London"]) ∧
    (env.zoneinfoAvailable = false →
      format_time env micro fmt (some z) =
        .ok ⟨format_time_subst (civilOfMicro micro).2 fmt.data⟩ ∧
      main_timezone_lines env micro fmt z =
        ["警告: 需要安装 zoneinfo 支持 (Python 3.9+)"]) := by
  constructor
  · intro ha hz
    have hf : format_time env micro fmt (some z) = .error z := by
      simp [format_time, ha, hz]
    refine ⟨hf, ?_⟩
    simp [main_timezone_lines, ha, hf]
  · intro ha
    have hf : format_time env micro fmt (some z) =
        .ok ⟨format_time_subst (civilOfMicro micro).2 fmt.data⟩ := by
      simp [format_time, ha]
    refine ⟨hf, ?_⟩
    simp [main_timezone_lines, ha]

/-- C3 (counterexample): with the timezone database unavailable, a requested
zone is rendered silently in UTC rather than producing an error that names
the identifier. -/
theorem format_time_silent_utc_fallback :
    ¬ (∀ (env : TZEnv) (micro : Int) (fmt z : String), env.tzdb z = none →
        (format_time env micro fmt (some z)).isOk = false) ∧
    format_time ⟨false, fun _ => none, 0⟩ 0 "YYYY-MM-DD HH:mm:ss" (some "Asia/Tokyo") =
      .ok "1970-01-01 00:00:00" ∧
    main_timezone_lines ⟨false, fun _ => none, 0⟩ 0 "YYYY-MM-DD HH:mm:ss" "Asia/Tokyo" =
      ["警告: 需要安装 zoneinfo 支持 (Python 3.9+)"] := by
  refine ⟨fun h => ?_, by decide, by decide⟩
  have := h ⟨false, fun _ => none, 0⟩ 0 "YYYY-MM-DD HH:mm:ss" "Asia/Tokyo" rfl
  exact absurd this (by decide)

/-- Witness for the amended C3: a database that resolves nothing, queried for
an invalid name with the module importable, and the module-missing case. -/
theorem timezone_error_reporting_witness :
    format_time ⟨true, fun _ => none, 0⟩ 0 "YYYY" (some "Bad/Zone") = .error "Bad/Zone" ∧
    main_timezone_lines ⟨true, fun _ => none, 0⟩ 0 "YYYY" "Bad/Zone" =
      ["无效时区: " ++ "Bad/Zone",
       "常用时区: Asia/Shanghai, Asia/Tokyo, America/New_York, Europe/London"] ∧
    main_timezone_lines ⟨false, fun _ => none, 0⟩ 0 "YYYY" "Asia/Tokyo" =
      ["警告: 需要安装 zoneinfo 支持 (Python 3.9+)"] :=
  ⟨((timezone_error_reporting ⟨true, fun _ => none, 0⟩ 0 "YYYY" "Bad/Zone").1 rfl rfl).1,
   ((timezone_error_reporting ⟨true, fun _ => none, 0⟩ 0 "YYYY" "Bad/Zone").1 rfl rfl).2,
   ((timezone_error_reporting ⟨false, fun _ => none, 0⟩ 0 "YYYY" "Asia/Tokyo").2 rfl).2⟩

/-! ## Claim C5: `timestamp_to_date` -/

/-- Rendering that claim C5 asserts for every integer input: the instant in
local time as `YYYY-MM-DD HH:MM:SS`, with no year-range restriction (this is
the claim's wording, used only to contrast with the embedded code). -/
def tsRenderClaimed (localOffMin : Int) (micro : Int) : String :=
  ⟨strftimeRun (civilOfMicro (micro + localOffMin * 60000000)).2 "%Y-%m-%d %H:%M:%S".data⟩

/-- C5 (amended): `timestamp_to_date` parses its input as an int (non-integer
input yields the literal diagnostic), scales by the `10^12` threshold —
seconds strictly below it, milliseconds at or above it — and renders the
instant in local time provided the instant falls within `datetime`'s year
range 1–9999 (outside it, `fromtimestamp` raises and the same diagnostic is
returned); the second-scale and millisecond-scale spellings of the same
instant decode identically. -/
theorem timestamp_to_date_spec (off : Int) (s : String) :
    (pyIntOfString s.data = none → timestamp_to_date off s = "无效时间戳") ∧
    (∀ n, pyIntOfString s.data = some n → n < 10 ^ 12 →
      timestamp_to_date off s = fromtimestampRender off (n * 1000000)) ∧
    (∀ n, pyIntOfString s.data = some n → 10 ^ 12 ≤ n →
      timestamp_to_date off s = fromtimestampRender off (n * 1000)) ∧
    timestamp_to_date off "1700000000" = timestamp_to_date off "1700000000000" := by
  refine ⟨fun h => ?_, fun n h hn => ?_, fun n h hn => ?_, ?_⟩
  · unfold timestamp_to_date
    rw [h]
  · unfold timestamp_to_date
    rw [h]
    simp only [if_pos hn]
  · unfold timestamp_to_date
    rw [h]
    simp only [if_neg (by omega : ¬ n < 10 ^ 12)]
  · have h1 : pyIntOfString "1700000000".data = some 1700000000 := by decide
    have h2 : pyIntOfString "1700000000000".data = some 1700000000000 := by decide
    unfold timestamp_to_date
    rw [h1, h2]
    norm_num

/-- C5 (counterexample): the integer input `999999999999` is strictly below
`10^12`, yet decoding yields the invalid-timestamp diagnostic (the implied
year 33658 exceeds `datetime`'s range and `fromtimestamp` raises), not the
rendered instant the claim promises for every integer input. -/
theorem timestamp_to_date_range_counterexample :
    ¬ (∀ (off : Int) (s : String) (n : Int), pyIntOfString s.data = some n →
        timestamp_to_date off s =
          tsRenderClaimed off (if n < 10 ^ 12 then n * 1000000 else n * 1000)) ∧
    timestamp_to_date 0 "999999999999" = "无效时间戳" ∧
    pyIntOfString "999999999999".data = some 999999999999 ∧
    (999999999999 : Int) < 10 ^ 12 := by
  refine ⟨fun h => ?_, by decide, by decide, by norm_num⟩
  have := h 0 "999999999999" 999999999999 (by decide)
  rw [if_pos (by norm_num)] at this
  exact absurd this (by decide)

/-- Witness for the amended C5: concrete decodes on both scales and on a
non-integer input. -/
theorem timestamp_to_date_spec_witness :
    timestamp_to_date 0 "not-a-number" = "无效时间戳" ∧
    timestamp_to_date 0 "1700000000" = fromtimestampRender 0 (1700000000 * 1000000) ∧
    timestamp_to_date 0 "1700000000000" = fromtimestampRender 0 (1700000000000 * 1000) ∧
    timestamp_to_date 0 "1700000000" = timestamp_to_date 0 "1700000000000" :=
  ⟨(timestamp_to_date_spec 0 "not-a-number").1 (by decide),
   (timestamp_to_date_spec 0 "1700000000").2.1 1700000000 (by decide) (by norm_num),
   (timestamp_to_date_spec 0 "1700000000000").2.2.1 1700000000000 (by decide) (by norm_num),
   (timestamp_to_date_spec 0 "x").2.2.2⟩

/-! ## Claim C7: section selection in `sysinfo.py` -/

/-- C7: the report for selector `all` holds exactly the system, CPU, memory,
disk and network sections in that order — never a process section — and the
process section appears exactly when the selector is `process` itself. -/
theorem main_sections_process_only_when_selected {α : Type} (env : SysEnv α) :
    (main_sections env .all).map Prod.fst = ["系统", "CPU", "内存", "磁盘", "网络"] ∧
    ∀ t : SInfoType, ("进程" ∈ (main_sections env t).map Prod.fst ↔ t = .process) := by
  constructor
  · simp [main_sections]
  · intro t
    cases t <;> simp [main_sections]

/-! ## Claim C9: fault isolation in `get_disk_info` -/

theorem get_disk_info_foldl (parts : List (PartitionInfo × Option DiskUsage))
    (acc : List DiskEntry) :
    parts.foldl
      (fun disks pu =>
        match pu.2 with
        | some u => disks ++ [mkDiskEntry pu.1 u]
        | none => disks)
      acc = acc ++ parts.filterMap (fun pu => pu.2.map (mkDiskEntry pu.1)) := by
  induction parts generalizing acc with
  | nil => simp
  | cons p ps ih =>
    obtain ⟨pi, u⟩ := p
    cases u with
    | none => simpa using ih acc
    | some v => simp [ih]

/-- C9: a partition whose usage query raises is skipped, while every partition
whose query succeeds contributes its entry, in enumeration order: the result
is exactly the in-order entries of the succeeding partitions. -/
theorem get_disk_info_skips_failing_partitions
    (parts : List (PartitionInfo × Option DiskUsage)) :
    get_disk_info parts = parts.filterMap (fun pu => pu.2.map (mkDiskEntry pu.1)) ∧
    ∀ p u, (p, some u) ∈ parts → mkDiskEntry p u ∈ get_disk_info parts := by
  have he : get_disk_info parts = parts.filterMap (fun pu => pu.2.map (mkDiskEntry pu.1)) := by
    unfold get_disk_info
    simpa using get_disk_info_foldl parts []
  refine ⟨he, fun p u hm => ?_⟩
  rw [he]
  exact List.mem_filterMap.mpr ⟨(p, some u), hm, rfl⟩

/-- Witness for C9: with the middle of three partitions failing, both healthy
partitions' entries are present. -/
theorem get_disk_info_skips_failing_partitions_witness :
    mkDiskEntry ⟨"/dev/sda1", "/"⟩ ⟨1000, 600, 400, 60⟩ ∈
      get_disk_info
        [(⟨"/dev/sda1", "/"⟩, some ⟨1000, 600, 400, 60⟩),
         (⟨"/dev/sdb1", "/mnt/broken"⟩, none),
         (⟨"/dev/sdc1", "/data"⟩, some ⟨500, 100, 400, 20⟩)] ∧
    mkDiskEntry ⟨"/dev/sdc1", "/data"⟩ ⟨500, 100, 400, 20⟩ ∈
      get_disk_info
        [(⟨"/dev/sda1", "/"⟩, some ⟨1000, 600, 400, 60⟩),
         (⟨"/dev/sdb1", "/mnt/broken"⟩, none),
         (⟨"/dev/sdc1", "/data"⟩, some ⟨500, 100, 400, 20⟩)] :=
  ⟨(get_disk_info_skips_failing_partitions _).2 ⟨"/dev/sda1", "/"⟩ ⟨1000, 600, 400, 60⟩
     (by simp),
   (get_disk_info_skips_failing_partitions _).2 ⟨"/dev/sdc1", "/data"⟩ ⟨500, 100, 400, 20⟩
     (by simp)⟩

/-! ## Claim C8: `format_bytes` -/

theorem charsOfNatAux_succ (fuel n : Nat) (acc : List Char) :
    charsOfNatAux (fuel + 1) n acc =
      if n < 10 then decDigit n :: acc
      else charsOfNatAux fuel (n / 10) (decDigit (n % 10) :: acc) := rfl

theorem pad2_length {n : Nat} (h : n < 100) : (pad2 n).length = 2 := by
  by_cases h10 : n < 10
  · simp only [pad2, charsOfNat, if_pos h10, charsOfNatAux_succ]
    simp
  · obtain ⟨m, rfl⟩ : ∃ m, n = m + 1 := ⟨n - 1, by omega⟩
    simp only [pad2, charsOfNat, if_neg h10, charsOfNatAux_succ]
    rw [if_pos (by omega : (m + 1) / 10 < 10)]
    rfl

/-- Output shape asserted by the spec: some prefix, a decimal point, then
exactly two decimal digits. -/
def twoDecimals (l : List Char) : Prop :=
  ∃ a b : List Char, l = a ++ '.' :: b ∧ b.length = 2 ∧ ∀ c ∈ b, c.isDigit

theorem fmt2_twoDecimals (q : ℚ) : twoDecimals (fmt2 q) :=
  ⟨charsOfNat ((roundHalfEven (q * 100)).toNat / 100),
   pad2 ((roundHalfEven (q * 100)).toNat % 100), rfl,
   pad2_length (Nat.mod_lt _ (by omega)), pad2_all_digit _⟩

/-- C8: for every byte count, the gigabyte rendering (with exactly two decimal
places) is chosen exactly when `n / 1024³ ≥ 1`, i.e. when `n ≥ 2³⁰`, and the
megabyte rendering (also two decimals) is chosen otherwise. -/
theorem format_bytes_unit_threshold (n : Nat) :
    (2 ^ 30 ≤ n →
      format_bytes n = ⟨fmt2 ((n : ℚ) / 1024 ^ 3) ++ " GB".data⟩ ∧
      twoDecimals (fmt2 ((n : ℚ) / 1024 ^ 3))) ∧
    (n < 2 ^ 30 →
      format_bytes n = ⟨fmt2 ((n : ℚ) / 1024 ^ 2) ++ " MB".data⟩ ∧
      twoDecimals (fmt2 ((n : ℚ) / 1024 ^ 2))) := by
  have key : 1 ≤ (n : ℚ) / 1024 ^ 3 ↔ 2 ^ 30 ≤ n := by
    rw [le_div_iff₀ (by norm_num : (0 : ℚ) < 1024 ^ 3), one_mul]
    rw [show ((1024 : ℚ) ^ 3) = ((2 ^ 30 : Nat) : ℚ) by norm_num, Nat.cast_le]
  constructor
  · intro h
    refine ⟨?_, fmt2_twoDecimals _⟩
    simp only [format_bytes]
    rw [if_pos (key.mpr h)]
  · intro h
    refine ⟨?_, fmt2_twoDecimals _⟩
    simp only [format_bytes]
    rw [if_neg (fun hc => absurd (key.mp hc) (by omega))]

/-- Witness for C8 on both sides of the threshold. -/
theorem format_bytes_unit_threshold_witness :
    format_bytes (2 ^ 31) = ⟨fmt2 (((2 ^ 31 : Nat) : ℚ) / 1024 ^ 3) ++ " GB".data⟩ ∧
    format_bytes 123 = ⟨fmt2 (((123 : Nat) : ℚ) / 1024 ^ 2) ++ " MB".data⟩ :=
  ⟨((format_bytes_unit_threshold (2 ^ 31)).1 (by norm_num)).1,
   ((format_bytes_unit_threshold 123).2 (by norm_num)).1⟩

/-! ## Claim C6: `get_process_info` ranking -/

theorem mem_insertByMem (p : ProcInfo) (l : List ProcInfo) (x : ProcInfo) :
    x ∈ insertByMem p l ↔ x = p ∨ x ∈ l := by
  induction l with
  | nil => simp [insertByMem]
  | cons q qs ih =>
    by_cases h : memKey q ≤ memKey p
    · simp only [insertByMem, if_pos h, List.mem_cons]
    · simp only [insertByMem, if_neg h, List.mem_cons, ih]
      all_goals tauto

theorem pairwise_insertByMem {p : ProcInfo} {l : List ProcInfo}
    (hl : l.Pairwise (fun a b => memKey b ≤ memKey a)) :
    (insertByMem p l).Pairwise (fun a b => memKey b ≤ memKey a) := by
  induction l with
  | nil => simp [insertByMem]
  | cons q qs ih =>
    rcases List.pairwise_cons.mp hl with ⟨hq, hqs⟩
    by_cases h : memKey q ≤ memKey p
    · simp only [insertByMem, if_pos h]
      refine List.pairwise_cons.mpr ⟨?_, hl⟩
      intro x hx
      rcases List.mem_cons.mp hx with rfl | hx2
      · exact h
      · exact le_trans (hq x hx2) h
    · simp only [insertByMem, if_neg h]
      refine List.pairwise_cons.mpr ⟨?_, ih hqs⟩
      intro x hx
      rcases (mem_insertByMem p qs x).mp hx with rfl | hx2
      · exact le_of_lt (not_le.mp h)
      · exact hq x hx2

theorem sortByMemDesc_pairwise (l : List ProcInfo) :
    (sortByMemDesc l).Pairwise (fun a b => memKey b ≤ memKey a) := by
  induction l with
  | nil => simp [sortByMemDesc]
  | cons p ps ih => exact pairwise_insertByMem ih

theorem filter_insertByMem (p : ProcInfo) (l : List ProcInfo) (k : ℚ) :
    (insertByMem p l).filter (fun q => memKey q == k) =
      (if memKey p = k then p :: l.filter (fun q => memKey q == k)
       else l.filter (fun q => memKey q == k)) := by
  induction l with
  | nil =>
    by_cases hk : memKey p = k <;> simp [insertByMem, List.filter_cons, hk]
  | cons q qs ih =>
    by_cases h : memKey q ≤ memKey p
    · rw [show insertByMem p (q :: qs) = p :: q :: qs from by simp [insertByMem, if_pos h]]
      by_cases hk : memKey p = k
      · rw [if_pos hk, List.filter_cons_of_pos (by simp [hk])]
      · rw [if_neg hk, List.filter_cons_of_neg (by simp [hk])]
    · have hlt : memKey p < memKey q := not_le.mp h
      rw [show insertByMem p (q :: qs) = q :: insertByMem p qs from by
            simp [insertByMem, if_neg h]]
      by_cases hqk : memKey q = k
      · have hk : ¬ memKey p = k := by rw [← hqk]; exact ne_of_lt hlt
        rw [if_neg hk, List.filter_cons_of_pos (by simp [hqk]), ih, if_neg hk,
            List.filter_cons_of_pos (by simp [hqk])]
      · by_cases hk : memKey p = k
        · rw [if_pos hk, List.filter_cons_of_neg (by simp [hqk]), ih, if_pos hk,
              List.filter_cons_of_neg (by simp [hqk])]
        · rw [if_neg hk, List.filter_cons_of_neg (by simp [hqk]), ih, if_neg hk,
              List.filter_cons_of_neg (by simp [hqk])]

theorem filter_sortByMemDesc (l : List ProcInfo) (k : ℚ) :
    (sortByMemDesc l).filter (fun q => memKey q == k) =
      l.filter (fun q => memKey q == k) := by
  induction l with
  | nil => simp [sortByMemDesc]
  | cons p ps ih =>
    by_cases hk : memKey p = k <;>
      simp [sortByMemDesc, filter_insertByMem, List.filter_cons, hk, ih]

/-- C6: the process report holds at most 10 entries, is sorted in
non-increasing memory-percentage order (a missing or `None` percentage ranks
as zero), and the sort is stable — for every key value, the entries carrying
that memory percentage appear in exactly their enumeration order; the output
is the first 10 entries of that stable descending order. -/
theorem get_process_info_top10_sorted_stable (enum : List (Option ProcInfo)) :
    (get_process_info enum).length ≤ 10 ∧
    (get_process_info enum).Pairwise (fun a b => memKey b ≤ memKey a) ∧
    (∀ k : ℚ, (sortByMemDesc (enum.filterMap id)).filter (fun p => memKey p == k) =
      (enum.filterMap id).filter (fun p => memKey p == k)) ∧
    get_process_info enum = (sortByMemDesc (enum.filterMap id)).take 10 ∧
    (∀ pid name cpu, memKey ⟨pid, name, cpu, none⟩ = 0) := by
  refine ⟨?_, ?_, fun k => filter_sortByMemDesc _ k, rfl, fun _ _ _ => rfl⟩
  · simp only [get_process_info, List.length_take]
    omega
  · exact List.Pairwise.sublist (List.take_sublist _ _) (sortByMemDesc_pairwise _)
